import Mathlib

/-! Verification of the SEO-analyzer core (`src/lib/insertKeywords.ts` and the
`app/api/analyze/route.ts` handler it ships with): a shallow embedding of the
three pure functions `insertKeyword`, `calculateScore`, `isMeaningfulContent`
and of the response shaping done by the `POST` handler after the content
filter, together with theorems settling the specification's claims.

Strings are modelled as Lean `String` / `List Char`; JavaScript numbers are
modelled as exact rationals `ℚ` (every operation performed by the code is
`+ - * / min max round` on decimal literals, which the spec describes in exact
real arithmetic); JS `Math.round` is `⌊x + 1/2⌋` (half-up, as in JS). -/

namespace SeoAnalyzer

/-- JS `String.prototype.trim` on the character list: drop whitespace from
both ends (the inputs of interest are ASCII, where JS `\s` and Lean's
`Char.isWhitespace` agree). -/
def trimChars (l : List Char) : List Char :=
  ((l.dropWhile Char.isWhitespace).reverse.dropWhile Char.isWhitespace).reverse

/-- Split a character list at every separator character satisfying `p`,
keeping empty pieces, as JS `split` with a single-character pattern does
(`"a..b".split('.') = ["a","","b"]`, `"".split('.') = [""]`). -/
def splitOnPred (p : Char → Bool) : List Char → List (List Char)
  | [] => [[]]
  | c :: rest =>
    match splitOnPred p rest with
    | [] => [[]]
    | s :: ss => if p c then [] :: s :: ss else (c :: s) :: ss

/-- JS `text.split('.')`: split at every occurrence of the separator
character. -/
def splitOnChar (sep : Char) (l : List Char) : List (List Char) :=
  splitOnPred (fun c => c == sep) l

/-- JS `s.split(/\s+/)`: split at maximal whitespace runs.  The empty string
gives `[""]`; a leading (resp. trailing) whitespace run contributes one empty
leading (resp. trailing) piece; all interior runs are collapsed. -/
def jsSplitWs (l : List Char) : List (List Char) :=
  match l with
  | [] => [[]]
  | c :: rest =>
    let pieces := (splitOnPred Char.isWhitespace (c :: rest)).filter
      (fun w => w.isEmpty = false)
    let withLead := if Char.isWhitespace c then [] :: pieces else pieces
    if Char.isWhitespace ((c :: rest).getLastD c) then withLead ++ [[]] else withLead

/-- JS `hay.includes(needle)` on character lists (case-sensitive contiguous
substring test; the empty needle is always contained). -/
def listContainsSub (needle : List Char) : List Char → Bool
  | [] => needle.isEmpty
  | c :: t => needle.isPrefixOf (c :: t) || listContainsSub needle t

/-- JS `text.includes(sub)` on strings. -/
def jsIncludes (text sub : String) : Bool :=
  listContainsSub sub.toList text.toList

/-- JS `s.toLowerCase()` (ASCII range, like `Char.toLower`). -/
def toLowerStr (s : String) : String :=
  ⟨s.toList.map Char.toLower⟩

/-- JS `Math.round`: round half-up, `⌊x + 1/2⌋`. -/
def jsRound (q : ℚ) : ℤ := ⌊q + 1 / 2⌋

/-- Source: `const textLength = text.trim().length`. -/
def textLengthOf (text : String) : ℕ := (trimChars text.toList).length

/-- Source: `const wordCount = text.trim().split(/\s+/).length`. -/
def wordCountOf (text : String) : ℕ := (jsSplitWs (trimChars text.toList)).length

/-- Source: `const maxTopicScore = Math.max(...topicScores, 0)` where
`topicScores = Object.values(topics)`. -/
def maxTopicScore (topics : List (String × ℚ)) : ℚ :=
  (topics.map Prod.snd).foldr max 0

/-- Source: `Math.min((keywordCount / wordCount) * 100, 20)`. -/
def keywordDensity (kc wc : ℕ) : ℚ :=
  min ((kc : ℚ) / (wc : ℚ) * 100) 20

/-- Source: the `lengthFactor` cascade (`0.6` below 100 chars, `0.8` below
200, `0.9` below 500, else `1`). -/
def lengthFactor (len : ℕ) : ℚ :=
  if len < 100 then 0.6 else if len < 200 then 0.8 else if len < 500 then 0.9 else 1

/-- Source: the `keywordFactor` cascade (`0.7` below 3 keywords, `0.85`
below 5, else `1`). -/
def keywordFactor (kc : ℕ) : ℚ :=
  if kc < 3 then 0.7 else if kc < 5 then 0.85 else 1

/-- Source: the `diversityFactor` block — sort the topic scores descending,
take the top two, and award `1.1` when the runner-up exceeds 70% of the
leader, else `1`. -/
def diversityFactor (topicScores : List ℚ) : ℚ :=
  if 1 < topicScores.length then
    match topicScores.insertionSort (fun a b => b ≤ a) with
    | a :: b :: _ => if a * 0.7 < b then 1.1 else 1
    | _ => 1
  else 1

/-- The raw score before the diminishing-returns adjustment: the source's
`score = (keywordDensity * 2) + (topicRelevance * 0.8)` followed by
`score = score * lengthFactor * keywordFactor * diversityFactor`, with
`topicRelevance = maxTopicScore * 100` and `keywordCount = kc`. -/
def rawScore (kc : ℕ) (topics : List (String × ℚ)) (text : String) : ℚ :=
  (keywordDensity kc (wordCountOf text) * 2 + maxTopicScore topics * 100 * 0.8) *
    lengthFactor (textLengthOf text) * keywordFactor kc *
    diversityFactor (topics.map Prod.snd)

/-- Source: `if (score > 85) score = 85 + (score - 85) * 0.3`. -/
def clamp85 (s : ℚ) : ℚ :=
  if 85 < s then 85 + (s - 85) * 0.3 else s

/-- Embedding of `calculateScore(keywords, topics, text)` from the route
handler: degenerate guard, raw score, diminishing-returns adjustment, then
`Math.min(100, Math.max(0, Math.round(score)))`. -/
def calculateScore (keywords topics : List (String × ℚ)) (text : String) : ℚ :=
  if textLengthOf text < 20 ∨ keywords.length = 0 ∨ wordCountOf text < 5 then 0
  else
    min 100 (max 0 ((jsRound (clamp85 (rawScore keywords.length topics text)) : ℤ) : ℚ))

example : calculateScore [] [] "hi" = 0 := by decide

example : wordCountOf "a b c d e" = 5 := by decide

example : jsSplitWs " a  b ".toList = [[], ['a'], ['b'], []] := by decide

example : splitOnChar '.' "a.b.".toList = [['a'], ['b'], []] := by decide

/-- Embedding of `insertKeyword(text, keyword)` from `src/lib/insertKeywords.ts`:
return the text unchanged when it already contains the keyword, else split on
`'.'`, append a space and the keyword to the first segment (the empty-split
branch mirrors the source's `sentences.length === 0` check) and rejoin
with `'.'`. -/
def insertKeyword (text keyword : String) : String :=
  if jsIncludes text keyword then text
  else
    match splitOnChar '.' text.toList with
    | [] => ⟨keyword.toList ++ '.' :: ' ' :: text.toList⟩
    | s :: ss => ⟨List.intercalate ['.'] ((s ++ ' ' :: keyword.toList) :: ss)⟩

example : insertKeyword "I like cats. They are great." "feline" =
    "I like cats feline. They are great." := by decide

example : insertKeyword "no periods here" "x" = "no periods here x" := by decide

/-- The filter's fixed stop-word set, source: `const commonWords = new Set([...])`. -/
def commonWords : List String :=
  ["the", "and", "for", "are", "but", "not", "you", "all", "can", "had",
   "her", "was", "one", "our", "out", "day", "get", "has", "him", "his",
   "how", "man", "new", "now", "old", "see", "two", "way", "who", "boy",
   "did", "its", "let", "put", "say", "she", "too", "use"]

/-- Source: the placeholder check — the lower-cased text contains
`"lorem ipsum"`, `"sample text"` or `"placeholder"`. -/
def hasPlaceholder (text : String) : Bool :=
  jsIncludes (toLowerStr text) "lorem ipsum" ||
    jsIncludes (toLowerStr text) "sample text" ||
      jsIncludes (toLowerStr text) "placeholder"

/-- Source: `/^\d+$/.test(kw)` — the keyword is non-empty and all digits. -/
def isPureNumber (s : String) : Bool :=
  !s.toList.isEmpty && s.toList.all Char.isDigit

/-- The filter predicate of `meaningfulKeywords`, source:
`kw.length > 2 && !commonWords.has(kw.toLowerCase()) && !(/^\d+$/.test(kw))`. -/
def isMeaningfulKw (kw : String) : Bool :=
  decide (2 < kw.length) && !commonWords.contains (toLowerStr kw) && !isPureNumber kw

/-- Source: `Object.keys(keywords).filter(...)` with the meaningful-keyword
predicate. -/
def meaningfulKeywords (keywords : List (String × ℚ)) : List String :=
  (keywords.map Prod.fst).filter isMeaningfulKw

/-- Source: `const words = text.toLowerCase().split(/\s+/)` in the filter
(note: the text is NOT trimmed here). -/
def lowerWords (text : String) : List (List Char) :=
  jsSplitWs (text.toList.map Char.toLower)

/-- Embedding of `isMeaningfulContent(text, keywords)`: placeholder check,
minimum-length check, repetition check (`uniqueWords.size / words.length <
0.5 && words.length > 10`), then `meaningfulKeywords.length > 0`. -/
def isMeaningfulContent (text : String) (keywords : List (String × ℚ)) : Bool :=
  if hasPlaceholder text then false
  else if (trimChars text.toList).length < 10 then false
  else if ((lowerWords text).dedup.length : ℚ) / ((lowerWords text).length : ℚ) < 1 / 2
      ∧ 10 < (lowerWords text).length then false
  else decide (0 < (meaningfulKeywords keywords).length)

example : isMeaningfulContent "Lorem ipsum dolor sit amet" [("lorem", 1)] = false := by
  decide

example : isMeaningfulContent "The quick brown fox jumps over the lazy dog today"
    [("fox", 1)] = true := by with_unfolding_all decide

/-- The shape of the JSON the `POST` handler returns after a successful call
to the extraction service (fields the rejection branch omits are `none`). -/
structure AnalyzeResponse where
  keywords : List String
  score : ℚ
  scoreCategory : String
  topic : String
  message : Option String
  topicScore : Option ℚ
  totalKeywords : Option ℕ
  textLength : Option ℕ
  wordCount : Option ℕ
deriving DecidableEq

/-- The score banding the handler applies to the calculator's result,
source: `if (score >= 75) "high" else if (score >= 50) "medium" else if
(score >= 25) "low" else "very-low"`. -/
def scoreCategoryOf (score : ℚ) : String :=
  if 75 ≤ score then "high"
  else if 50 ≤ score then "medium"
  else if 25 ≤ score then "low"
  else "very-low"

/-- Embedding of the tail of the `POST` handler (after the extraction service
succeeded, with `keywords`, `topics` and the trimmed text in hand): run the
filter; on rejection return the literal zero-score response with
`scoreCategory: "low"`; otherwise rank the keywords and topics by descending
weight, run the calculator and band its score. -/
def analyzePostFilter (keywords topics : List (String × ℚ))
    (trimmedText : String) : AnalyzeResponse :=
  if isMeaningfulContent trimmedText keywords = false then
    { keywords := [], score := 0, scoreCategory := "low",
      topic := "No meaningful content",
      message := some "Text seems to be placeholder or lacks SEO value.",
      topicScore := none, totalKeywords := none, textLength := none,
      wordCount := none }
  else
    let keywordArray := (keywords.insertionSort (fun a b => b.2 ≤ a.2)).map Prod.fst
    let sortedTopics := topics.insertionSort (fun a b => b.2 ≤ a.2)
    let score := calculateScore keywords topics trimmedText
    { keywords := keywordArray, score := score,
      scoreCategory := scoreCategoryOf score,
      topic := match sortedTopics with | [] => "general" | x :: _ => x.1,
      message := none,
      topicScore := some (match sortedTopics with | [] => 0 | x :: _ => x.2),
      totalKeywords := some keywordArray.length,
      textLength := some trimmedText.length,
      wordCount := some (jsSplitWs trimmedText.toList).length }

example : (analyzePostFilter [("lorem", 1)] [] "Lorem ipsum dolor sit amet").scoreCategory
    = "low" := by decide

/-! Helper lemmas about the splitting functions and `insertKeyword`. -/

lemma splitOnPred_ne_nil (p : Char → Bool) (l : List Char) : splitOnPred p l ≠ [] := by
  induction l with
  | nil => simp [splitOnPred]
  | cons c rest ih =>
    cases h : splitOnPred p rest with
    | nil => simp [splitOnPred, h]
    | cons s ss =>
      simp only [splitOnPred, h]
      split <;> simp

lemma splitOnChar_ne_nil (sep : Char) (l : List Char) : splitOnChar sep l ≠ [] :=
  splitOnPred_ne_nil _ l

lemma splitOnChar_of_not_mem (sep : Char) (l : List Char) (h : sep ∉ l) :
    splitOnChar sep l = [l] := by
  unfold splitOnChar
  induction l with
  | nil => rfl
  | cons c rest ih =>
    have hr := ih (fun hm => h (List.mem_cons_of_mem _ hm))
    have hc : (c == sep) = false :=
      beq_eq_false_iff_ne.mpr (fun he => h (he ▸ List.mem_cons_self _ _))
    simp [splitOnPred, hr, hc]

lemma intercalate_single (sep x : List Char) : List.intercalate sep [x] = x := by
  simp [List.intercalate]

lemma insertKeyword_of_includes {text keyword : String}
    (h : jsIncludes text keyword = true) : insertKeyword text keyword = text := by
  unfold insertKeyword
  rw [if_pos h]

/-! Claim theorems. -/

/-- C1: `calculateScore` returns exactly 0 whenever the trimmed text length is
less than 20 characters, or the keyword map has 0 entries, or the
whitespace-split word count is less than 5. -/
theorem calculateScore_degenerate_zero (keywords topics : List (String × ℚ))
    (text : String)
    (h : textLengthOf text < 20 ∨ keywords.length = 0 ∨ wordCountOf text < 5) :
    calculateScore keywords topics text = 0 := by
  unfold calculateScore
  exact if_pos h

/-- C1 witness: in particular `calculateScore({}, {}, "hi") = 0`. -/
theorem calculateScore_degenerate_zero_witness :
    (textLengthOf "hi" < 20 ∨ ([] : List (String × ℚ)).length = 0 ∨
        wordCountOf "hi" < 5) ∧
      calculateScore [] [] "hi" = 0 :=
  ⟨Or.inl (by decide), calculateScore_degenerate_zero [] [] "hi" (Or.inl (by decide))⟩

/-- C2: for every keyword map and topic map with non-negative weights and
every text, `calculateScore` returns an integer lying in `[0, 100]`. -/
theorem calculateScore_int_range (keywords topics : List (String × ℚ))
    (text : String)
    (_hk : ∀ p ∈ keywords, 0 ≤ p.2) (_ht : ∀ p ∈ topics, 0 ≤ p.2) :
    ∃ n : ℤ, calculateScore keywords topics text = (n : ℚ) ∧ 0 ≤ n ∧ n ≤ 100 := by
  unfold calculateScore
  split_ifs with h
  · exact ⟨0, by norm_num⟩
  · refine ⟨min 100 (max 0 (jsRound (clamp85 (rawScore keywords.length topics text)))),
      ?_, ?_, ?_⟩
    · push_cast
      rfl
    · exact le_min (by norm_num) (le_max_left 0 _)
    · exact min_le_left _ _

/-- C2 witness at a concrete non-negative-weight input. -/
theorem calculateScore_int_range_witness :
    (∀ p ∈ [("seo", (1 : ℚ))], 0 ≤ p.2) ∧
      (∀ p ∈ [("topic", (1/2 : ℚ))], 0 ≤ p.2) ∧
      ∃ n : ℤ,
        calculateScore [("seo", 1)] [("topic", 1/2)]
            "one two three four five six seven" = (n : ℚ) ∧ 0 ≤ n ∧ n ≤ 100 :=
  ⟨by with_unfolding_all decide, by with_unfolding_all decide,
    calculateScore_int_range [("seo", 1)] [("topic", 1/2)]
      "one two three four five six seven"
      (by with_unfolding_all decide) (by with_unfolding_all decide)⟩

/-- C9: `calculateScore` depends on the keyword map only through its number
of entries: keyword maps of equal size yield equal scores for every topic
map and text. -/
theorem calculateScore_keyword_count_only (k1 k2 topics : List (String × ℚ))
    (text : String) (h : k1.length = k2.length) :
    calculateScore k1 topics text = calculateScore k2 topics text := by
  unfold calculateScore
  rw [h]

/-- C9 witness: two equal-sized keyword maps with unrelated keys and weights
give the same score. -/
theorem calculateScore_keyword_count_only_witness :
    [("alpha", (1 : ℚ))].length = [("zeta", (5 : ℚ))].length ∧
      calculateScore [("alpha", 1)] [("t", 1/3)] "one two three four five six" =
        calculateScore [("zeta", 5)] [("t", 1/3)] "one two three four five six" :=
  ⟨rfl, calculateScore_keyword_count_only [("alpha", 1)] [("zeta", 5)]
    [("t", 1/3)] "one two three four five six" rfl⟩

/-- C6: `insertKeyword` returns its text unchanged whenever the keyword
already occurs as a case-sensitive substring, and is therefore idempotent
whenever the keyword is a substring of the first application's result. -/
theorem insertKeyword_idempotent (text keyword : String) :
    (jsIncludes text keyword = true → insertKeyword text keyword = text) ∧
      (jsIncludes (insertKeyword text keyword) keyword = true →
        insertKeyword (insertKeyword text keyword) keyword =
          insertKeyword text keyword) :=
  ⟨fun h => insertKeyword_of_includes h, fun h => insertKeyword_of_includes h⟩

/-- C6 witness: both conjuncts discharged at concrete inputs. -/
theorem insertKeyword_idempotent_witness :
    (jsIncludes "the cat sat" "cat" = true ∧
        insertKeyword "the cat sat" "cat" = "the cat sat") ∧
      (jsIncludes (insertKeyword "the dog ran" "dog") "dog" = true ∧
        insertKeyword (insertKeyword "the dog ran" "dog") "dog" =
          insertKeyword "the dog ran" "dog") :=
  ⟨⟨by decide, (insertKeyword_idempotent "the cat sat" "cat").1 (by decide)⟩,
    ⟨by decide, (insertKeyword_idempotent "the dog ran" "dog").2 (by decide)⟩⟩

/-- C7: for every text not containing the keyword, `insertKeyword` returns
the `'.'`-rejoin of the `'.'`-split segments with `" keyword"` appended to
the first segment only — the segment count is preserved and all other
segments are untouched — and for a text with no `'.'` the result is the text
followed by a space and the keyword. -/
theorem insertKeyword_splice (text keyword : String)
    (h : jsIncludes text keyword = false) :
    (∃ s0 ss, splitOnChar '.' text.toList = s0 :: ss ∧
        insertKeyword text keyword =
          ⟨List.intercalate ['.'] ((s0 ++ ' ' :: keyword.toList) :: ss)⟩ ∧
        ((s0 ++ ' ' :: keyword.toList) :: ss).length =
          (splitOnChar '.' text.toList).length) ∧
      ('.' ∉ text.toList →
        insertKeyword text keyword = ⟨text.toList ++ ' ' :: keyword.toList⟩) := by
  obtain ⟨s0, ss, hsplit⟩ :=
    List.exists_cons_of_ne_nil (splitOnChar_ne_nil '.' text.toList)
  have hmain : insertKeyword text keyword =
      ⟨List.intercalate ['.'] ((s0 ++ ' ' :: keyword.toList) :: ss)⟩ := by
    unfold insertKeyword
    rw [if_neg (by simp [h]), hsplit]
  refine ⟨⟨s0, ss, hsplit, hmain, by rw [hsplit]; simp⟩, fun hdot => ?_⟩
  have h1 : s0 :: ss = [text.toList] := by
    rw [← hsplit, splitOnChar_of_not_mem _ _ hdot]
  obtain ⟨rfl, rfl⟩ : s0 = text.toList ∧ ss = [] := by simpa using h1
  rw [hmain, intercalate_single]

/-- C7 witness: the single-segment example
`insertKeyword("no periods here", "x") = "no periods here x"`. -/
theorem insertKeyword_splice_witness :
    jsIncludes "no periods here" "x" = false ∧ '.' ∉ "no periods here".toList ∧
      insertKeyword "no periods here" "x" = "no periods here x" := by
  refine ⟨by decide, by decide, ?_⟩
  have hres := (insertKeyword_splice "no periods here" "x" (by decide)).2 (by decide)
  rw [hres]
  decide

/-- C10: splitting any text on `'.'` yields a non-empty list of segments, so
the `"{keyword}. {text}"` branch of `insertKeyword` is unreachable: every
call returns either the unchanged text or the rejoined segments with the
keyword appended to the first. -/
theorem insertKeyword_split_never_empty (text keyword : String) :
    splitOnChar '.' text.toList ≠ [] ∧
      (insertKeyword text keyword = text ∨
        ∃ s0 ss, splitOnChar '.' text.toList = s0 :: ss ∧
          insertKeyword text keyword =
            ⟨List.intercalate ['.'] ((s0 ++ ' ' :: keyword.toList) :: ss)⟩) := by
  refine ⟨splitOnChar_ne_nil _ _, ?_⟩
  by_cases h : jsIncludes text keyword = true
  · exact Or.inl (insertKeyword_of_includes h)
  · right
    obtain ⟨s0, ss, hsplit⟩ :=
      List.exists_cons_of_ne_nil (splitOnChar_ne_nil '.' text.toList)
    refine ⟨s0, ss, hsplit, ?_⟩
    unfold insertKeyword
    rw [if_neg h, hsplit]

/-- The Filter's rejection condition as the specification states it:
placeholder text, short trimmed text, repetitive word use, or no meaningful
keyword left after the exclusions. -/
def specRejects (text : String) (keywords : List (String × ℚ)) : Prop :=
  hasPlaceholder text = true ∨
    (trimChars text.toList).length < 10 ∨
    (((lowerWords text).dedup.length : ℚ) / ((lowerWords text).length : ℚ) < 1 / 2 ∧
      10 < (lowerWords text).length) ∨
    (meaningfulKeywords keywords).length = 0

/-- C8: `isMeaningfulContent` returns false iff at least one of the four
rejection conditions of the specification holds, and in particular
`isMeaningfulContent("Lorem ipsum dolor sit amet", {"lorem": 1})` is false. -/
theorem isMeaningfulContent_false_iff :
    (∀ (text : String) (keywords : List (String × ℚ)),
        isMeaningfulContent text keywords = false ↔ specRejects text keywords) ∧
      isMeaningfulContent "Lorem ipsum dolor sit amet" [("lorem", 1)] = false := by
  constructor
  · intro text keywords
    unfold isMeaningfulContent specRejects
    split_ifs with h1 h2 h3
    · exact iff_of_true rfl (Or.inl h1)
    · exact iff_of_true rfl (Or.inr (Or.inl h2))
    · exact iff_of_true rfl (Or.inr (Or.inr (Or.inl h3)))
    · constructor
      · intro h
        refine Or.inr (Or.inr (Or.inr ?_))
        have h' : ¬ 0 < (meaningfulKeywords keywords).length := by simpa using h
        omega
      · rintro (h | h | h | h)
        · exact absurd h h1
        · exact absurd h h2
        · exact absurd h h3
        · simp [h]
  · decide

/-- A concrete input on which the raw pre-adjustment score is exactly 100:
four keywords over twenty words cap the density at 20, the topic weight
`1939/1122` makes the base score `100000/561`, and the factors
`0.6 * 0.85 * 1.1 = 0.561` bring the product back to exactly 100. -/
def exKeywords : List (String × ℚ) :=
  [("alpha", 1), ("beta", 1), ("gamma", 1), ("delta", 1)]

def exTopics : List (String × ℚ) :=
  [("t1", 1939/1122), ("t2", 1939/1122)]

def exText : String :=
  "ab ab ab ab ab ab ab ab ab ab ab ab ab ab ab ab ab ab ab ab"

/-- C3 counterexample: an input that passes the degenerate guard and whose
raw computed score is exactly 100; the returned score is 90
(`Math.round(85 + 15*0.3) = Math.round(89.5) = 90`), not the claimed 89. -/
theorem calculateScore_raw100_counterexample :
    20 ≤ textLengthOf exText ∧ exKeywords.length ≠ 0 ∧ 5 ≤ wordCountOf exText ∧
      rawScore exKeywords.length exTopics exText = 100 ∧
      calculateScore exKeywords exTopics exText = 90 ∧
      calculateScore exKeywords exTopics exText ≠ 89 := by
  with_unfolding_all decide

/-- C3 amended: for any input that passes the degenerate guard and whose raw
computed score is exactly 100, the returned score is 90 — the rounding of
`85 + 15*0.3 = 89.5` rounds half up — and in particular never 100. -/
theorem calculateScore_raw100 (keywords topics : List (String × ℚ))
    (text : String)
    (h1 : 20 ≤ textLengthOf text) (h2 : keywords.length ≠ 0)
    (h3 : 5 ≤ wordCountOf text)
    (h4 : rawScore keywords.length topics text = 100) :
    calculateScore keywords topics text = 90 := by
  unfold calculateScore
  rw [if_neg (by push_neg; exact ⟨by omega, h2, by omega⟩), h4]
  norm_num [clamp85, jsRound]

/-- C3 witness: the amended theorem applied at the concrete raw-100 input. -/
theorem calculateScore_raw100_witness :
    (20 ≤ textLengthOf exText ∧ exKeywords.length ≠ 0 ∧ 5 ≤ wordCountOf exText ∧
        rawScore exKeywords.length exTopics exText = 100) ∧
      calculateScore exKeywords exTopics exText = 90 :=
  ⟨⟨by decide, by decide, by decide, by with_unfolding_all decide⟩,
    calculateScore_raw100 exKeywords exTopics exText (by decide) (by decide)
      (by decide) (by with_unfolding_all decide)⟩

/-- C4 counterexample: when the Filter rejects, the handler's response has
score 0 but `scoreCategory = "low"`, while the banding of the returned score
0 is `"very-low"`. -/
theorem scoreCategory_reject_counterexample :
    (analyzePostFilter [("lorem", 1)] [] "Lorem ipsum dolor sit amet").score = 0 ∧
      (analyzePostFilter [("lorem", 1)] [] "Lorem ipsum dolor sit amet").scoreCategory
        = "low" ∧
      scoreCategoryOf 0 = "very-low" ∧
      (analyzePostFilter [("lorem", 1)] [] "Lorem ipsum dolor sit amet").scoreCategory
        ≠ scoreCategoryOf
          (analyzePostFilter [("lorem", 1)] [] "Lorem ipsum dolor sit amet").score := by
  with_unfolding_all decide

/-- C4 amended: when the Filter accepts, the response's `scoreCategory`
equals the banding of its score; when the Filter rejects, the response has
score 0 and the hardcoded category `"low"` (not the banding `"very-low"`). -/
theorem scoreCategory_banding (keywords topics : List (String × ℚ))
    (text : String) :
    (isMeaningfulContent text keywords = true →
        (analyzePostFilter keywords topics text).scoreCategory =
          scoreCategoryOf (analyzePostFilter keywords topics text).score) ∧
      (isMeaningfulContent text keywords = false →
        (analyzePostFilter keywords topics text).score = 0 ∧
          (analyzePostFilter keywords topics text).scoreCategory = "low") := by
  constructor
  · intro h
    unfold analyzePostFilter
    rw [if_neg (by simp [h])]
  · intro h
    unfold analyzePostFilter
    rw [if_pos h]
    exact ⟨rfl, rfl⟩

/-- C4 witness: the banding holds on a concrete accepted input. -/
theorem scoreCategory_banding_witness :
    isMeaningfulContent "The quick brown fox jumps over the lazy dog today"
        [("fox", 1)] = true ∧
      (analyzePostFilter [("fox", 1)] [("news", 1/4)]
          "The quick brown fox jumps over the lazy dog today").scoreCategory =
        scoreCategoryOf (analyzePostFilter [("fox", 1)] [("news", 1/4)]
          "The quick brown fox jumps over the lazy dog today").score :=
  ⟨by with_unfolding_all decide,
    (scoreCategory_banding [("fox", 1)] [("news", 1/4)]
      "The quick brown fox jumps over the lazy dog today").1
      (by with_unfolding_all decide)⟩

/-! Helper lemmas for the monotonicity of the score in the keyword count. -/

lemma foldr_max_nonneg (l : List ℚ) : 0 ≤ l.foldr max 0 := by
  induction l with
  | nil => exact le_refl 0
  | cons a t ih => exact le_max_of_le_right ih

lemma maxTopicScore_nonneg (topics : List (String × ℚ)) :
    0 ≤ maxTopicScore topics :=
  foldr_max_nonneg _

lemma keywordDensity_nonneg (kc wc : ℕ) : 0 ≤ keywordDensity kc wc :=
  le_min (by positivity) (by norm_num)

lemma lengthFactor_nonneg (len : ℕ) : 0 ≤ lengthFactor len := by
  unfold lengthFactor
  split_ifs <;> norm_num

lemma keywordFactor_nonneg (kc : ℕ) : 0 ≤ keywordFactor kc := by
  unfold keywordFactor
  split_ifs <;> norm_num

lemma keywordFactor_mono {n1 n2 : ℕ} (h : n1 ≤ n2) :
    keywordFactor n1 ≤ keywordFactor n2 := by
  unfold keywordFactor
  split_ifs <;> first | (exfalso; omega) | norm_num

lemma diversityFactor_nonneg (ts : List ℚ) : 0 ≤ diversityFactor ts := by
  unfold diversityFactor
  split
  · split
    · split <;> norm_num
    · norm_num
  · norm_num

lemma keywordDensity_mono {n1 n2 wc : ℕ} (h : n1 ≤ n2) (hwc : 0 < wc) :
    keywordDensity n1 wc ≤ keywordDensity n2 wc := by
  unfold keywordDensity
  have hwcq : (0 : ℚ) < (wc : ℚ) := by exact_mod_cast hwc
  have hdiv : (n1 : ℚ) / (wc : ℚ) ≤ (n2 : ℚ) / (wc : ℚ) :=
    (div_le_div_iff_of_pos_right hwcq).mpr (by exact_mod_cast h)
  exact min_le_min (mul_le_mul_of_nonneg_right hdiv (by norm_num)) le_rfl

lemma rawScore_mono {n1 n2 : ℕ} (topics : List (String × ℚ)) (text : String)
    (h : n1 ≤ n2) (hwc : 0 < wordCountOf text) :
    rawScore n1 topics text ≤ rawScore n2 topics text := by
  unfold rawScore
  have hkd1 := keywordDensity_nonneg n1 (wordCountOf text)
  have hkd2 := keywordDensity_nonneg n2 (wordCountOf text)
  have hmt := maxTopicScore_nonneg topics
  have hbm := keywordDensity_mono h hwc
  have hbase :
      keywordDensity n1 (wordCountOf text) * 2 + maxTopicScore topics * 100 * 0.8 ≤
        keywordDensity n2 (wordCountOf text) * 2 + maxTopicScore topics * 100 * 0.8 := by
    linarith
  have hb2 :
      0 ≤ keywordDensity n2 (wordCountOf text) * 2 + maxTopicScore topics * 100 * 0.8 := by
    linarith
  have h1 := mul_le_mul_of_nonneg_right hbase (lengthFactor_nonneg (textLengthOf text))
  have h2 := mul_le_mul h1 (keywordFactor_mono h) (keywordFactor_nonneg n1)
    (mul_nonneg hb2 (lengthFactor_nonneg (textLengthOf text)))
  exact mul_le_mul_of_nonneg_right h2 (diversityFactor_nonneg _)

lemma clamp85_mono {x y : ℚ} (h : x ≤ y) : clamp85 x ≤ clamp85 y := by
  unfold clamp85
  split_ifs <;> linarith

lemma calculateScore_nonneg (keywords topics : List (String × ℚ))
    (text : String) : 0 ≤ calculateScore keywords topics text := by
  unfold calculateScore
  split_ifs
  · exact le_refl 0
  · exact le_min (by norm_num) (le_max_left 0 _)

/-- C5: holding the topic map and the text fixed, `calculateScore` is
monotonically non-decreasing in the number of keyword-map entries while the
keyword density `keywordCount / wordCount * 100` stays below the 20 cap. -/
theorem calculateScore_mono_keywordCount (k1 k2 topics : List (String × ℚ))
    (text : String) (hn : k1.length ≤ k2.length)
    (_hcap : ((k2.length : ℚ) / (wordCountOf text : ℚ)) * 100 < 20) :
    calculateScore k1 topics text ≤ calculateScore k2 topics text := by
  by_cases hg : textLengthOf text < 20 ∨ wordCountOf text < 5
  · have e1 : calculateScore k1 topics text = 0 := by
      unfold calculateScore
      refine if_pos ?_
      rcases hg with h | h
      · exact Or.inl h
      · exact Or.inr (Or.inr h)
    rw [e1]
    exact calculateScore_nonneg k2 topics text
  · push_neg at hg
    obtain ⟨h20, h5⟩ := hg
    by_cases hk1 : k1.length = 0
    · have e1 : calculateScore k1 topics text = 0 := by
        unfold calculateScore
        exact if_pos (Or.inr (Or.inl hk1))
      rw [e1]
      exact calculateScore_nonneg k2 topics text
    · have hk2 : k2.length ≠ 0 := by omega
      have hwc : 0 < wordCountOf text := by omega
      unfold calculateScore
      rw [if_neg (by push_neg; exact ⟨by omega, hk1, by omega⟩),
        if_neg (by push_neg; exact ⟨by omega, hk2, by omega⟩)]
      have hraw := rawScore_mono topics text hn hwc
      have hclamp := clamp85_mono hraw
      have hround : jsRound (clamp85 (rawScore k1.length topics text)) ≤
          jsRound (clamp85 (rawScore k2.length topics text)) := by
        unfold jsRound
        exact Int.floor_le_floor (by linarith)
      exact min_le_min le_rfl (max_le_max le_rfl (by exact_mod_cast hround))

/-- C5 witness: adding a second keyword at density below the cap does not
decrease the score. -/
theorem calculateScore_mono_keywordCount_witness :
    [("a", (1 : ℚ))].length ≤ [("a", (1 : ℚ)), ("b", 2)].length ∧
      (([("a", (1 : ℚ)), ("b", (2 : ℚ))].length : ℚ) /
          (wordCountOf "a b c d e f g h i j k" : ℚ)) * 100 < 20 ∧
      calculateScore [("a", 1)] [("t", 1/2)] "a b c d e f g h i j k" ≤
        calculateScore [("a", 1), ("b", 2)] [("t", 1/2)] "a b c d e f g h i j k" :=
  ⟨by decide, by with_unfolding_all decide,
    calculateScore_mono_keywordCount [("a", 1)] [("a", 1), ("b", 2)] [("t", 1/2)]
      "a b c d e f g h i j k" (by decide) (by with_unfolding_all decide)⟩

end SeoAnalyzer
